import Mathlib

/-!
Verification of the packing-layout engine of the Coins repository
(`src/app.py`): the grid generator `generate_coords_100_circles`, the
hexagonal generator `generate_coords_105_circles`, and the external
packing loader `load_coords_106_circles` with its normalization and
bounding-box computation.

Numeric model: the Python code computes with floats; here the arithmetic
is idealized as exact ordered-field arithmetic.  The grid generator and
the loader only ever produce rational values, so they are embedded over
`ℚ`.  The hexagonal generator uses `np.sqrt(3)`, an irrational value, so
it is embedded over an arbitrary linear ordered field with the value of
`np.sqrt(3)` passed as the parameter `sqrt3`; theorems instantiate it at
`ℝ` with `Real.sqrt 3`.
-/

/-- Constant `SQUARE_SIDE = 10.0` from `app.py`. -/
def SQUARE_SIDE : ℚ := 10

/-- Constant `CIRCLE_DIAMETER = 1.0` from `app.py`. -/
def CIRCLE_DIAMETER : ℚ := 1

/-- Constant `CIRCLE_RADIUS = CIRCLE_DIAMETER / 2.0` from `app.py`. -/
def CIRCLE_RADIUS : ℚ := CIRCLE_DIAMETER / 2

/-- Semantics of `np.min` on a 1-d array given as a list: the least
element, or `none` when the array is empty (where NumPy raises
`ValueError: zero-size array to reduction operation`). -/
def npMin {α : Type*} [LinearOrder α] : List α → Option α
  | [] => none
  | x :: xs =>
    some (match npMin xs with
          | none => x
          | some m => min x m)

/-- Semantics of `np.max` on a 1-d array given as a list: the greatest
element, or `none` when the array is empty (where NumPy raises). -/
def npMax {α : Type*} [LinearOrder α] : List α → Option α
  | [] => none
  | x :: xs =>
    some (match npMax xs with
          | none => x
          | some m => max x m)

/-- Embedding of `generate_coords_100_circles` (`app.py` lines 21-31):
row-major 10×10 grid of centers `(col*D + R, row*D + R)`, returned
together with `SQUARE_SIDE`. -/
def generate_coords_100_circles : List (ℚ × ℚ) × ℚ :=
  ((List.range 10).flatMap (fun row =>
    (List.range 10).map (fun col =>
      ((col : ℚ) * CIRCLE_DIAMETER + CIRCLE_RADIUS,
       (row : ℚ) * CIRCLE_DIAMETER + CIRCLE_RADIUS))),
   SQUARE_SIDE)

/-- Embedding of `generate_coords_105_circles` (`app.py` lines 33-65).
The parameter `sqrt3` is the value the Python code obtains as
`np.sqrt(3)`; the literals `1` and `1/2` are `CIRCLE_DIAMETER` and
`CIRCLE_RADIUS` carried into the field `α`.  Rows `i = 0..10`; even
(long) rows hold 10 circles at `x = j*D + R`, odd (short) rows hold 9
circles at `x = j*D + R + R`; row `i` has `y = i*row_height + R` with
`row_height = sqrt3/2 * D`.  The second component is
`total_packing_height = (num_rows - 1)*row_height + D`. -/
def generate_coords_105_circles {α : Type*} [LinearOrderedField α] (sqrt3 : α) :
    List (α × α) × α :=
  let row_height : α := sqrt3 / 2 * 1
  let num_rows : ℕ := 11
  let total_packing_height : α := ((num_rows - 1 : ℕ) : α) * row_height + 1
  let coords : List (α × α) :=
    (List.range num_rows).flatMap (fun (i : ℕ) =>
      let current_num_circles : ℕ := if i % 2 = 0 then 10 else 9
      let y_center : α := (i : α) * row_height + 1 / 2
      (List.range current_num_circles).map (fun (j : ℕ) =>
        let x_center : α := (j : α) * 1 + 1 / 2
        (if i % 2 = 0 then x_center else x_center + 1 / 2, y_center)))
  (coords, total_packing_height)

/-- Token of a whitespace-delimited text line: either a numeric field
(its exact value) or a non-numeric field. -/
inductive Token where
  | num (q : ℚ)
  | other
deriving DecidableEq

/-- Model of an on-disk coordinate file: its byte size (what
`os.path.getsize` returns) and its data rows (the lines that remain
after NumPy discards comment and blank lines), each tokenized into
whitespace-separated fields. -/
structure CoordFile where
  size : ℕ
  rows : List (List Token)

/-- Semantics of `np.loadtxt(..., usecols=(1, 2))` on a single row:
fields 1 and 2 must exist and be numeric (field 0 is never converted);
`none` models the exception NumPy raises otherwise. -/
def parseRow (row : List Token) : Option (ℚ × ℚ) :=
  match row.get? 1, row.get? 2 with
  | some (Token.num x), some (Token.num y) => some (x, y)
  | _, _ => none

/-- Semantics of `np.loadtxt(COORDS_106_FILE, ndmin=2, usecols=(1, 2))`
over the data rows: every row must parse, else the whole call raises
(modelled as `none`, caught by the `except` in `app.py`). -/
def loadtxtRows : List (List Token) → Option (List (ℚ × ℚ))
  | [] => some []
  | r :: rs =>
    match parseRow r, loadtxtRows rs with
    | some p, some ps => some (p :: ps)
    | _, _ => none

/-- Outcome of running a Python function: a returned value, or an
uncaught exception aborting the run. -/
inductive PyResult (β : Type) where
  | ret (val : β)
  | raise
deriving DecidableEq

/-- Status reported by the loader through its `st.error` / `st.warning`
branches: success (with the count-mismatch warning flag), or one of the
four distinguishable error-message branches of `app.py` lines 74-97. -/
inductive LoadStatus where
  | success (count_warning : Bool)
  | notFound
  | emptyFile
  | parseError
  | malformedFormat
deriving DecidableEq

/-- Bounding-box computation of `app.py` lines 116-117:
`(np.max(x) + CIRCLE_RADIUS, np.max(y) + CIRCLE_RADIUS)`; `none` models
the `ValueError` NumPy raises on a zero-size array. -/
def boundingBox (l : List (ℚ × ℚ)) : Option (ℚ × ℚ) :=
  match npMax (l.map Prod.fst), npMax (l.map Prod.snd) with
  | some mx, some my => some (mx + CIRCLE_RADIUS, my + CIRCLE_RADIUS)
  | _, _ => none

/-- Normalization step of `app.py` lines 105-112 as a standalone
function: shift every coordinate by `min - CIRCLE_RADIUS` on each axis.
On an empty list (both minima undefined) it returns the list unchanged;
the loader itself never reaches this step with an empty list without
raising first. -/
def normalizeCoords {α : Type*} [LinearOrderedField α] (l : List (α × α)) :
    List (α × α) :=
  match npMin (l.map Prod.fst), npMin (l.map Prod.snd) with
  | some min_x, some min_y =>
    l.map (fun p => (p.1 - (min_x - 1 / 2), p.2 - (min_y - 1 / 2)))
  | _, _ => l

/-- Embedding of `load_coords_106_circles` (`app.py` lines 67-127).
`file = none` models a missing file.  `emptyCols` is the number of
columns NumPy reports for a parse that yields zero data rows (this is
NumPy-version dependent: the empty array under `ndmin=2` has been
observed with shape `(0, 1)` and may be `(0, len(usecols)) = (0, 2)`);
for a successful nonempty parse with `usecols=(1, 2)` the column count
is always 2.  The branches mirror the source: missing file, zero-byte
file, `loadtxt` exception, shape check, count warning, then
normalization and bounding box, returning
`max(packing_width, packing_height)` as the single dimension. -/
def load_coords_106_circles (emptyCols : ℕ) (file : Option CoordFile) :
    PyResult (List (ℚ × ℚ) × ℚ × LoadStatus) :=
  match file with
  | none => .ret ([], 0, .notFound)
  | some f =>
    if f.size = 0 then .ret ([], 0, .emptyFile)
    else
      match loadtxtRows f.rows with
      | none => .ret ([], 0, .parseError)
      | some raw =>
        let ncols : ℕ := match raw with | [] => emptyCols | _ :: _ => 2
        if ncols ≠ 2 then .ret ([], 0, .malformedFormat)
        else
          let count_warning : Bool := raw.length != 106
          match npMin (raw.map Prod.fst), npMin (raw.map Prod.snd) with
          | some min_x, some min_y =>
            let adjusted := raw.map (fun p =>
              (p.1 - (min_x - CIRCLE_RADIUS), p.2 - (min_y - CIRCLE_RADIUS)))
            match boundingBox adjusted with
            | some (pw, ph) => .ret (adjusted, max pw ph, .success count_warning)
            | none => .raise
          | _, _ => .raise

section MinMaxLemmas

variable {α : Type*} [LinearOrder α]

theorem npMin_eq_none_iff (l : List α) : npMin l = none ↔ l = [] := by
  cases l <;> simp [npMin]

theorem npMax_eq_none_iff (l : List α) : npMax l = none ↔ l = [] := by
  cases l <;> simp [npMax]

theorem npMin_eq_some_iff (l : List α) (a : α) :
    npMin l = some a ↔ a ∈ l ∧ ∀ b ∈ l, a ≤ b := by
  induction l generalizing a with
  | nil => simp [npMin]
  | cons x xs ih =>
    rw [npMin]
    cases hxs : npMin xs with
    | none =>
      rw [npMin_eq_none_iff] at hxs
      subst hxs
      constructor
      · intro h
        obtain rfl : x = a := by injection h
        refine ⟨List.mem_cons_self _ _, ?_⟩
        intro b hb
        rcases List.mem_singleton.mp hb with rfl
        exact le_refl _
      · rintro ⟨ha, -⟩
        rcases List.mem_singleton.mp ha with rfl
        rfl
    | some m =>
      have hm := (ih m).mp hxs
      simp only [Option.some.injEq, List.mem_cons]
      constructor
      · rintro rfl
        refine ⟨?_, ?_⟩
        · rcases le_total x m with h | h
          · exact Or.inl (min_eq_left h)
          · exact Or.inr (by rw [min_eq_right h]; exact hm.1)
        · intro b hb
          rcases hb with rfl | hb
          · exact min_le_left _ _
          · exact le_trans (min_le_right _ _) (hm.2 b hb)
      · rintro ⟨ha, hle⟩
        have h1 : a ≤ x := hle x (Or.inl rfl)
        have h2 : a ≤ m := hle m (Or.inr hm.1)
        have h3 : min x m ≤ a := by
          rcases ha with rfl | ha
          · exact min_le_left _ _
          · exact le_trans (min_le_right _ _) (hm.2 a ha)
        exact le_antisymm h3 (le_min h1 h2)

theorem npMax_eq_some_iff (l : List α) (a : α) :
    npMax l = some a ↔ a ∈ l ∧ ∀ b ∈ l, b ≤ a := by
  induction l generalizing a with
  | nil => simp [npMax]
  | cons x xs ih =>
    rw [npMax]
    cases hxs : npMax xs with
    | none =>
      rw [npMax_eq_none_iff] at hxs
      subst hxs
      constructor
      · intro h
        obtain rfl : x = a := by injection h
        refine ⟨List.mem_cons_self _ _, ?_⟩
        intro b hb
        rcases List.mem_singleton.mp hb with rfl
        exact le_refl _
      · rintro ⟨ha, -⟩
        rcases List.mem_singleton.mp ha with rfl
        rfl
    | some m =>
      have hm := (ih m).mp hxs
      simp only [Option.some.injEq, List.mem_cons]
      constructor
      · rintro rfl
        refine ⟨?_, ?_⟩
        · rcases le_total x m with h | h
          · exact Or.inr (by rw [max_eq_right h]; exact hm.1)
          · exact Or.inl (max_eq_left h)
        · intro b hb
          rcases hb with rfl | hb
          · exact le_max_left _ _
          · exact le_trans (hm.2 b hb) (le_max_right _ _)
      · rintro ⟨ha, hle⟩
        have h1 : x ≤ a := hle x (Or.inl rfl)
        have h2 : m ≤ a := hle m (Or.inr hm.1)
        have h3 : a ≤ max x m := by
          rcases ha with rfl | ha
          · exact le_max_left _ _
          · exact le_trans (hm.2 a ha) (le_max_right _ _)
        exact le_antisymm (max_le h1 h2) h3

theorem npMin_isSome_of_ne_nil (l : List α) (h : l ≠ []) :
    ∃ a, npMin l = some a := by
  cases hl : npMin l with
  | none => exact absurd ((npMin_eq_none_iff l).mp hl) h
  | some a => exact ⟨a, rfl⟩

theorem npMax_isSome_of_ne_nil (l : List α) (h : l ≠ []) :
    ∃ a, npMax l = some a := by
  cases hl : npMax l with
  | none => exact absurd ((npMax_eq_none_iff l).mp hl) h
  | some a => exact ⟨a, rfl⟩

end MinMaxLemmas

section MinMaxShift

variable {α : Type*} [LinearOrderedField α]

theorem npMin_map_sub (l : List α) (c : α) :
    npMin (l.map (fun x => x - c)) = (npMin l).map (fun x => x - c) := by
  induction l with
  | nil => simp [npMin]
  | cons x xs ih =>
    rw [List.map_cons, npMin, npMin, ih]
    cases npMin xs with
    | none => simp
    | some m => simp [min_sub_sub_right]

theorem npMax_map_sub (l : List α) (c : α) :
    npMax (l.map (fun x => x - c)) = (npMax l).map (fun x => x - c) := by
  induction l with
  | nil => simp [npMax]
  | cons x xs ih =>
    rw [List.map_cons, npMax, npMax, ih]
    cases npMax xs with
    | none => simp
    | some m => simp [max_sub_sub_right]

end MinMaxShift

section HexLemmas

variable {α : Type*} [LinearOrderedField α]

theorem hex_mem_iff (s3 : α) (p : α × α) :
    p ∈ (generate_coords_105_circles s3).1 ↔
      ∃ i : ℕ, i < 11 ∧ ∃ j : ℕ, j < (if i % 2 = 0 then 10 else 9) ∧
        p = ((if i % 2 = 0 then (j : α) * 1 + 1 / 2 else (j : α) * 1 + 1 / 2 + 1 / 2),
             (i : α) * (s3 / 2 * 1) + 1 / 2) := by
  simp [generate_coords_105_circles, List.mem_flatMap, List.mem_map, List.mem_range,
    eq_comm]

theorem hex_length (s3 : α) : (generate_coords_105_circles s3).1.length = 105 := by
  simp only [generate_coords_105_circles, List.length_flatMap, Function.comp_def,
    List.length_map, List.length_range]
  decide

theorem hex_snd (s3 : α) :
    (generate_coords_105_circles s3).2 = 10 * (s3 / 2 * 1) + 1 := by
  simp [generate_coords_105_circles]

theorem hex_nodup (s3 : α) (h : 0 < s3) :
    (generate_coords_105_circles s3).1.Nodup := by
  simp only [generate_coords_105_circles]
  rw [List.nodup_flatMap]
  constructor
  · intro i hi
    refine List.Nodup.map ?_ (List.nodup_range _)
    intro j k hjk
    have hx := congrArg Prod.fst hjk
    by_cases hp : i % 2 = 0 <;> simp [hp] at hx <;> exact_mod_cast hx
  · refine (List.pairwise_lt_range 11).imp ?_
    intro a b hab p hpa hpb
    obtain ⟨j, hj, rfl⟩ := List.mem_map.mp hpa
    obtain ⟨k, hk, hpk⟩ := List.mem_map.mp hpb
    have hy := congrArg Prod.snd hpk
    simp only at hy
    have hyy : (b : α) * (s3 / 2 * 1) = (a : α) * (s3 / 2 * 1) := by linarith [hy]
    have hba : (b : α) = (a : α) := by
      have hne : (s3 / 2 * 1 : α) ≠ 0 := by positivity
      exact mul_right_cancel₀ hne hyy
    have : b = a := Nat.cast_injective hba
    omega

theorem hex_min_fst (s3 : α) :
    npMin ((generate_coords_105_circles s3).1.map Prod.fst) = some (1 / 2) := by
  rw [npMin_eq_some_iff]
  constructor
  · refine List.mem_map.mpr ⟨((0 : α) * 1 + 1 / 2, (0 : α) * (s3 / 2 * 1) + 1 / 2), ?_, by norm_num⟩
    refine (hex_mem_iff s3 _).mpr ⟨0, by norm_num, 0, by norm_num, by norm_num⟩
  · intro b hb
    obtain ⟨p, hp, rfl⟩ := List.mem_map.mp hb
    obtain ⟨i, hi, j, hj, rfl⟩ := (hex_mem_iff s3 p).mp hp
    have hj0 : (0 : α) ≤ (j : α) := Nat.cast_nonneg j
    by_cases hp2 : i % 2 = 0
    · simp [hp2]
    · simp [hp2]
      linarith

theorem hex_min_snd (s3 : α) (h : 0 ≤ s3) :
    npMin ((generate_coords_105_circles s3).1.map Prod.snd) = some (1 / 2) := by
  rw [npMin_eq_some_iff]
  constructor
  · refine List.mem_map.mpr ⟨((0 : α) * 1 + 1 / 2, (0 : α) * (s3 / 2 * 1) + 1 / 2), ?_, by norm_num⟩
    refine (hex_mem_iff s3 _).mpr ⟨0, by norm_num, 0, by norm_num, by norm_num⟩
  · intro b hb
    obtain ⟨p, hp, rfl⟩ := List.mem_map.mp hb
    obtain ⟨i, hi, j, hj, rfl⟩ := (hex_mem_iff s3 p).mp hp
    have hi0 : (0 : α) ≤ (i : α) := Nat.cast_nonneg i
    have : (0 : α) ≤ (i : α) * (s3 / 2 * 1) := by positivity
    simp only
    linarith

end HexLemmas

theorem sqrt3_lt_nine_fifths : Real.sqrt 3 < 9 / 5 := by
  rw [show (9 / 5 : ℝ) = Real.sqrt ((9 / 5) ^ 2) by rw [Real.sqrt_sq]; norm_num]
  apply Real.sqrt_lt_sqrt <;> norm_num

theorem hex_snd_lt_ten : (generate_coords_105_circles (Real.sqrt 3)).2 < 10 := by
  rw [hex_snd]
  have := sqrt3_lt_nine_fifths
  linarith

section NormalizeLemmas

variable {α : Type*} [LinearOrderedField α]

theorem normalize_eq_self_of_min (l : List (α × α))
    (h1 : npMin (l.map Prod.fst) = some (1 / 2))
    (h2 : npMin (l.map Prod.snd) = some (1 / 2)) :
    normalizeCoords l = l := by
  unfold normalizeCoords
  rw [h1, h2]
  simp

theorem normalized_min_fst (l : List (α × α)) (h : l ≠ []) :
    npMin ((normalizeCoords l).map Prod.fst) = some (1 / 2) := by
  obtain ⟨mx, hmx⟩ := npMin_isSome_of_ne_nil (l.map Prod.fst) (by simpa using h)
  obtain ⟨my, hmy⟩ := npMin_isSome_of_ne_nil (l.map Prod.snd) (by simpa using h)
  unfold normalizeCoords
  rw [hmx, hmy]
  have hmap : (l.map (fun p => (p.1 - (mx - 1 / 2), p.2 - (my - 1 / 2)))).map Prod.fst
      = (l.map Prod.fst).map (fun x => x - (mx - 1 / 2)) := by
    simp [List.map_map, Function.comp_def]
  rw [hmap, npMin_map_sub, hmx]
  norm_num

theorem normalized_min_snd (l : List (α × α)) (h : l ≠ []) :
    npMin ((normalizeCoords l).map Prod.snd) = some (1 / 2) := by
  obtain ⟨mx, hmx⟩ := npMin_isSome_of_ne_nil (l.map Prod.fst) (by simpa using h)
  obtain ⟨my, hmy⟩ := npMin_isSome_of_ne_nil (l.map Prod.snd) (by simpa using h)
  unfold normalizeCoords
  rw [hmx, hmy]
  have hmap : (l.map (fun p => (p.1 - (mx - 1 / 2), p.2 - (my - 1 / 2)))).map Prod.snd
      = (l.map Prod.snd).map (fun x => x - (my - 1 / 2)) := by
    simp [List.map_map, Function.comp_def]
  rw [hmap, npMin_map_sub, hmy]
  norm_num

theorem normalizeCoords_ne_nil (l : List (α × α)) (h : l ≠ []) :
    normalizeCoords l ≠ [] := by
  unfold normalizeCoords
  cases hmx : npMin (l.map Prod.fst) <;> cases hmy : npMin (l.map Prod.snd) <;>
    simp [h]

theorem normalizeCoords_length (l : List (α × α)) :
    (normalizeCoords l).length = l.length := by
  unfold normalizeCoords
  cases hmx : npMin (l.map Prod.fst) <;> cases hmy : npMin (l.map Prod.snd) <;>
    simp

end NormalizeLemmas

theorem circle_radius_val : CIRCLE_RADIUS = 1 / 2 := by
  norm_num [CIRCLE_RADIUS, CIRCLE_DIAMETER]

theorem normalizeCoords_eq_of_min {α : Type*} [LinearOrderedField α]
    (l : List (α × α)) (mx my : α)
    (hmx : npMin (l.map Prod.fst) = some mx) (hmy : npMin (l.map Prod.snd) = some my) :
    normalizeCoords l = l.map (fun q => (q.1 - (mx - 1 / 2), q.2 - (my - 1 / 2))) := by
  unfold normalizeCoords
  rw [hmx, hmy]

theorem load_eval (ec : ℕ) (f : CoordFile) (p : ℚ × ℚ) (ps : List (ℚ × ℚ))
    (hs : f.size ≠ 0) (hparse : loadtxtRows f.rows = some (p :: ps)) :
    load_coords_106_circles ec (some f) =
      .ret (normalizeCoords (p :: ps),
            max ((npMax ((normalizeCoords (p :: ps)).map Prod.fst)).getD 0 + 1 / 2)
                ((npMax ((normalizeCoords (p :: ps)).map Prod.snd)).getD 0 + 1 / 2),
            .success ((p :: ps).length != 106)) := by
  simp [load_coords_106_circles, normalizeCoords, boundingBox, npMin, npMax,
    circle_radius_val, hs, hparse, List.map_cons, List.map_map, Function.comp_def]


theorem load_success_inv (ec : ℕ) (f : CoordFile) (coords : List (ℚ × ℚ)) (side : ℚ)
    (w : Bool)
    (h : load_coords_106_circles ec (some f) = .ret (coords, side, .success w)) :
    ∃ p ps, f.size ≠ 0 ∧ loadtxtRows f.rows = some (p :: ps) := by
  by_cases hs : f.size = 0
  · exfalso
    simp [load_coords_106_circles, hs] at h
  · cases hparse : loadtxtRows f.rows with
    | none =>
      exfalso
      simp [load_coords_106_circles, hs, hparse] at h
    | some raw =>
      cases raw with
      | nil =>
        exfalso
        by_cases hec : ec = 2
        · simp [load_coords_106_circles, hs, hparse, hec, npMin] at h
        · simp [load_coords_106_circles, hs, hparse, hec] at h
      | cons p ps => exact ⟨p, ps, hs, rfl⟩

theorem grid_mem_iff (p : ℚ × ℚ) :
    p ∈ generate_coords_100_circles.1 ↔
      ∃ row : ℕ, row < 10 ∧ ∃ col : ℕ, col < 10 ∧
        p = ((col : ℚ) * CIRCLE_DIAMETER + CIRCLE_RADIUS,
             (row : ℚ) * CIRCLE_DIAMETER + CIRCLE_RADIUS) := by
  simp [generate_coords_100_circles, List.mem_flatMap, List.mem_map, List.mem_range]
  constructor
  · rintro ⟨row, hr, x, ⟨col, hc, rfl⟩, rfl⟩
    exact ⟨row, hr, col, hc, rfl⟩
  · rintro ⟨row, hr, col, hc, rfl⟩
    exact ⟨row, hr, (col : ℚ), ⟨col, hc, rfl⟩, rfl⟩

theorem grid_min_fst :
    npMin (generate_coords_100_circles.1.map Prod.fst) = some (1 / 2) := by
  rw [npMin_eq_some_iff]
  constructor
  · refine List.mem_map.mpr
      ⟨((0 : ℚ) * CIRCLE_DIAMETER + CIRCLE_RADIUS,
        (0 : ℚ) * CIRCLE_DIAMETER + CIRCLE_RADIUS), ?_,
       by norm_num [CIRCLE_DIAMETER, CIRCLE_RADIUS]⟩
    exact (grid_mem_iff _).mpr ⟨0, by norm_num, 0, by norm_num, rfl⟩
  · intro b hb
    obtain ⟨p, hp, rfl⟩ := List.mem_map.mp hb
    obtain ⟨row, hr, col, hc, rfl⟩ := (grid_mem_iff p).mp hp
    have h3 : (0 : ℚ) ≤ (col : ℚ) := Nat.cast_nonneg col
    simp only [CIRCLE_DIAMETER, CIRCLE_RADIUS]
    linarith

theorem grid_min_snd :
    npMin (generate_coords_100_circles.1.map Prod.snd) = some (1 / 2) := by
  rw [npMin_eq_some_iff]
  constructor
  · refine List.mem_map.mpr
      ⟨((0 : ℚ) * CIRCLE_DIAMETER + CIRCLE_RADIUS,
        (0 : ℚ) * CIRCLE_DIAMETER + CIRCLE_RADIUS), ?_,
       by norm_num [CIRCLE_DIAMETER, CIRCLE_RADIUS]⟩
    exact (grid_mem_iff _).mpr ⟨0, by norm_num, 0, by norm_num, rfl⟩
  · intro b hb
    obtain ⟨p, hp, rfl⟩ := List.mem_map.mp hb
    obtain ⟨row, hr, col, hc, rfl⟩ := (grid_mem_iff p).mp hp
    have h4 : (0 : ℚ) ≤ (row : ℚ) := Nat.cast_nonneg row
    simp only [CIRCLE_DIAMETER, CIRCLE_RADIUS]
    linarith

/-- C3: the Grid Generator, taking no inputs, produces exactly 100 circle
centers, namely the centers `(col*D + D/2, row*D + D/2)` for the cells
(row, col) with `row, col < 10` (0-indexed, D = 1); every center lies in
`[1/2, 19/2]` on both axes, and the returned dimension — the side of the
square packing box, serving as both `packing_width` and
`packing_height` — equals 10. -/
theorem grid_generator_spec :
    generate_coords_100_circles.1.length = 100 ∧
    (∀ p : ℚ × ℚ, p ∈ generate_coords_100_circles.1 ↔
      ∃ row : ℕ, row < 10 ∧ ∃ col : ℕ, col < 10 ∧
        p = ((col : ℚ) * CIRCLE_DIAMETER + CIRCLE_RADIUS,
             (row : ℚ) * CIRCLE_DIAMETER + CIRCLE_RADIUS)) ∧
    (∀ p ∈ generate_coords_100_circles.1,
      1 / 2 ≤ p.1 ∧ p.1 ≤ 19 / 2 ∧ 1 / 2 ≤ p.2 ∧ p.2 ≤ 19 / 2) ∧
    generate_coords_100_circles.2 = 10 := by
  refine ⟨?_, fun p => grid_mem_iff p, ?_, rfl⟩
  · simp only [generate_coords_100_circles, List.length_flatMap, Function.comp_def,
      List.length_map, List.length_range]
    decide
  · intro p hp
    obtain ⟨row, hr, col, hc, rfl⟩ := (grid_mem_iff p).mp hp
    have h1 : (col : ℚ) ≤ 9 := by exact_mod_cast Nat.lt_succ_iff.mp hc
    have h2 : (row : ℚ) ≤ 9 := by exact_mod_cast Nat.lt_succ_iff.mp hr
    have h3 : (0 : ℚ) ≤ (col : ℚ) := Nat.cast_nonneg col
    have h4 : (0 : ℚ) ≤ (row : ℚ) := Nat.cast_nonneg row
    simp only [CIRCLE_DIAMETER, CIRCLE_RADIUS]
    refine ⟨by linarith, by linarith, by linarith, by linarith⟩

/-- Witness for C3: the cell (row 5, col 7) yields the center
(15/2, 11/2), which the grid contains. -/
theorem grid_generator_spec_witness :
    ((7 : ℚ) * CIRCLE_DIAMETER + CIRCLE_RADIUS,
     (5 : ℚ) * CIRCLE_DIAMETER + CIRCLE_RADIUS) ∈ generate_coords_100_circles.1 :=
  (grid_generator_spec.2.1 _).mpr ⟨5, by norm_num, 7, by norm_num, rfl⟩

/-- C4: the Hexagonal Generator produces exactly 105 centers: rows
i = 0..10 alternate 10 circles (even i, long) and 9 circles (odd i,
short); row i has center-y `i*(sqrt3/2*D) + D/2`; long-row circle j has
center-x `j*D + D/2`; short-row circle j has center-x
`j*D + D/2 + D/2` (a half-diameter horizontal offset); and no two of
the produced centers coincide. -/
theorem hex_generator_structure :
    (generate_coords_105_circles (Real.sqrt 3)).1.length = 105 ∧
    (∀ p : ℝ × ℝ, p ∈ (generate_coords_105_circles (Real.sqrt 3)).1 ↔
      ∃ i : ℕ, i < 11 ∧ ∃ j : ℕ, j < (if i % 2 = 0 then 10 else 9) ∧
        p = ((if i % 2 = 0 then (j : ℝ) * 1 + 1 / 2
              else (j : ℝ) * 1 + 1 / 2 + 1 / 2),
             (i : ℝ) * (Real.sqrt 3 / 2 * 1) + 1 / 2)) ∧
    (generate_coords_105_circles (Real.sqrt 3)).1.Nodup :=
  ⟨hex_length _, fun p => hex_mem_iff _ p,
   hex_nodup _ (Real.sqrt_pos.mpr (by norm_num))⟩

/-- Witness for C4: the first circle of short row 1 is the center
(1, sqrt3/2 + 1/2), and the generator contains it. -/
theorem hex_generator_structure_witness :
    (((if 1 % 2 = 0 then ((0 : ℕ) : ℝ) * 1 + 1 / 2
       else ((0 : ℕ) : ℝ) * 1 + 1 / 2 + 1 / 2),
      ((1 : ℕ) : ℝ) * (Real.sqrt 3 / 2 * 1) + 1 / 2)) ∈
      (generate_coords_105_circles (Real.sqrt 3)).1 :=
  (hex_generator_structure.2.1 _).mpr ⟨1, by norm_num, 0, by norm_num, rfl⟩

/-- C2 is false as stated: the result of the Hexagonal Generator has exactly
two components, the 105 centers and ONE scalar dimension, and that
scalar is `total_packing_height = 10*(sqrt3/2)*D + D ≈ 9.660`, not 10;
no `packing_width = 10.0` component is returned. -/
theorem hex_width_not_returned :
    (generate_coords_105_circles (Real.sqrt 3)).2 ≠ 10 ∧
    (generate_coords_105_circles (Real.sqrt 3)).2 =
      10 * (Real.sqrt 3 / 2 * 1) + 1 :=
  ⟨ne_of_lt hex_snd_lt_ten, hex_snd _⟩

/-- C2 amended: the Hexagonal Generator returns, alongside its 105
centers, the single dimension `10*(sqrt3/2)*D + D` (the packing height,
approximately 9.660); `packing_width = 10.0` is not among the components
of its result. -/
theorem hex_dimensions_amended :
    (generate_coords_105_circles (Real.sqrt 3)).1.length = 105 ∧
    (generate_coords_105_circles (Real.sqrt 3)).2 =
      10 * (Real.sqrt 3 / 2 * 1) + 1 :=
  ⟨hex_length _, hex_snd _⟩

/-- C10: both generators already satisfy the normalization
convention of the loader: the minimum center x- and y-coordinate of the
output of each generator equals the radius 1/2, hence applying the
shift to either output is the identity. -/
theorem generators_already_normalized :
    npMin (generate_coords_100_circles.1.map Prod.fst) = some CIRCLE_RADIUS ∧
    npMin (generate_coords_100_circles.1.map Prod.snd) = some CIRCLE_RADIUS ∧
    normalizeCoords generate_coords_100_circles.1 = generate_coords_100_circles.1 ∧
    npMin ((generate_coords_105_circles (Real.sqrt 3)).1.map Prod.fst) =
      some (1 / 2) ∧
    npMin ((generate_coords_105_circles (Real.sqrt 3)).1.map Prod.snd) =
      some (1 / 2) ∧
    normalizeCoords (generate_coords_105_circles (Real.sqrt 3)).1 =
      (generate_coords_105_circles (Real.sqrt 3)).1 := by
  rw [circle_radius_val]
  exact ⟨grid_min_fst, grid_min_snd,
    normalize_eq_self_of_min _ grid_min_fst grid_min_snd,
    hex_min_fst _, hex_min_snd _ (Real.sqrt_nonneg 3),
    normalize_eq_self_of_min _ (hex_min_fst _) (hex_min_snd _ (Real.sqrt_nonneg 3))⟩

/-- C9 is false as stated for the Hexagonal Generator: the rightmost
circle of row 0 has center (19/2, 1/2), whose disc reaches x = 10, but
the dimension returned with the packing is `5*sqrt3 + 1 ≈ 9.660 < 10`,
so the disc does not lie within the box given by the returned
dimension. -/
theorem packing_invariant_hex_counterexample :
    ((9 : ℝ) * 1 + 1 / 2, (0 : ℝ) * (Real.sqrt 3 / 2 * 1) + 1 / 2) ∈
        (generate_coords_105_circles (Real.sqrt 3)).1 ∧
    (generate_coords_105_circles (Real.sqrt 3)).2 <
      ((9 : ℝ) * 1 + 1 / 2) + 1 / 2 := by
  constructor
  · exact (hex_mem_iff _ _).mpr ⟨0, by norm_num, 9, by norm_num, by norm_num⟩
  · rw [hex_snd]
    have := sqrt3_lt_nine_fifths
    linarith

/-- C9 amended: every disc lies in the box given by the returned
dimensions for the Grid Generator (returned side 10) and for every
successful External Packing Loader run (returned single side); for the
Hexagonal Generator the disc lies within x in [0, 10] and y in
[0, returned dimension], but the returned dimension is only the height
(see the counterexample: the x-extent exceeds it). -/
theorem packing_invariant_amended :
    (∀ p ∈ generate_coords_100_circles.1,
      0 ≤ p.1 - CIRCLE_RADIUS ∧ p.1 + CIRCLE_RADIUS ≤ generate_coords_100_circles.2 ∧
      0 ≤ p.2 - CIRCLE_RADIUS ∧ p.2 + CIRCLE_RADIUS ≤ generate_coords_100_circles.2) ∧
    (∀ p ∈ (generate_coords_105_circles (Real.sqrt 3)).1,
      0 ≤ p.1 - 1 / 2 ∧ p.1 + 1 / 2 ≤ 10 ∧
      0 ≤ p.2 - 1 / 2 ∧
      p.2 + 1 / 2 ≤ (generate_coords_105_circles (Real.sqrt 3)).2) ∧
    (∀ (ec : ℕ) (f : CoordFile) (coords : List (ℚ × ℚ)) (side : ℚ) (w : Bool),
      load_coords_106_circles ec (some f) = .ret (coords, side, .success w) →
      ∀ p ∈ coords,
        0 ≤ p.1 - CIRCLE_RADIUS ∧ p.1 + CIRCLE_RADIUS ≤ side ∧
        0 ≤ p.2 - CIRCLE_RADIUS ∧ p.2 + CIRCLE_RADIUS ≤ side) := by
  refine ⟨?_, ?_, ?_⟩
  · intro p hp
    obtain ⟨row, hr, col, hc, rfl⟩ := (grid_mem_iff p).mp hp
    have h1 : (col : ℚ) ≤ 9 := by exact_mod_cast Nat.lt_succ_iff.mp hc
    have h2 : (row : ℚ) ≤ 9 := by exact_mod_cast Nat.lt_succ_iff.mp hr
    have h3 : (0 : ℚ) ≤ (col : ℚ) := Nat.cast_nonneg col
    have h4 : (0 : ℚ) ≤ (row : ℚ) := Nat.cast_nonneg row
    have hdim : generate_coords_100_circles.2 = 10 := rfl
    rw [hdim]
    dsimp only
    simp only [CIRCLE_DIAMETER, CIRCLE_RADIUS]
    refine ⟨by linarith, by linarith, by linarith, by linarith⟩
  · intro p hp
    obtain ⟨i, hi, j, hj, rfl⟩ := (hex_mem_iff _ p).mp hp
    rw [hex_snd]
    have hi10 : (i : ℝ) ≤ 10 := by exact_mod_cast Nat.lt_succ_iff.mp hi
    have hi0 : (0 : ℝ) ≤ (i : ℝ) := Nat.cast_nonneg i
    have hj0 : (0 : ℝ) ≤ (j : ℝ) := Nat.cast_nonneg j
    have hys : (0 : ℝ) ≤ Real.sqrt 3 / 2 * 1 := by positivity
    have hy0 : (0 : ℝ) ≤ (i : ℝ) * (Real.sqrt 3 / 2 * 1) := mul_nonneg hi0 hys
    have hy10 : (i : ℝ) * (Real.sqrt 3 / 2 * 1) ≤ 10 * (Real.sqrt 3 / 2 * 1) :=
      mul_le_mul_of_nonneg_right hi10 hys
    dsimp only
    by_cases hpar : i % 2 = 0
    · rw [if_pos hpar]
      rw [if_pos hpar] at hj
      have hj9 : (j : ℝ) ≤ 9 := by exact_mod_cast Nat.lt_succ_iff.mp hj
      refine ⟨by linarith, by linarith, by linarith, by linarith⟩
    · rw [if_neg hpar]
      rw [if_neg hpar] at hj
      have hj8 : (j : ℝ) ≤ 8 := by exact_mod_cast Nat.lt_succ_iff.mp hj
      refine ⟨by linarith, by linarith, by linarith, by linarith⟩
  · intro ec f coords side w h p hp
    obtain ⟨q, ps, hs, hparse⟩ := load_success_inv ec f coords side w h
    rw [load_eval ec f q ps hs hparse] at h
    have hinj := h
    simp only [PyResult.ret.injEq, Prod.mk.injEq] at hinj
    obtain ⟨hc, hside, hw⟩ := hinj
    subst hc
    obtain ⟨mx, hmx⟩ := npMax_isSome_of_ne_nil
      ((normalizeCoords (q :: ps)).map Prod.fst)
      (by simp [normalizeCoords_ne_nil (q :: ps) (List.cons_ne_nil q ps)])
    obtain ⟨my, hmy⟩ := npMax_isSome_of_ne_nil
      ((normalizeCoords (q :: ps)).map Prod.snd)
      (by simp [normalizeCoords_ne_nil (q :: ps) (List.cons_ne_nil q ps)])
    have hminf := normalized_min_fst (q :: ps) (List.cons_ne_nil q ps)
    have hmins := normalized_min_snd (q :: ps) (List.cons_ne_nil q ps)
    have hp1lo : 1 / 2 ≤ p.1 :=
      (npMin_eq_some_iff _ _).mp hminf |>.2 p.1 (List.mem_map_of_mem Prod.fst hp)
    have hp2lo : 1 / 2 ≤ p.2 :=
      (npMin_eq_some_iff _ _).mp hmins |>.2 p.2 (List.mem_map_of_mem Prod.snd hp)
    have hp1hi : p.1 ≤ mx :=
      (npMax_eq_some_iff _ _).mp hmx |>.2 p.1 (List.mem_map_of_mem Prod.fst hp)
    have hp2hi : p.2 ≤ my :=
      (npMax_eq_some_iff _ _).mp hmy |>.2 p.2 (List.mem_map_of_mem Prod.snd hp)
    have hside : max (mx + 1 / 2) (my + 1 / 2) = side := by
      rw [← hside, hmx, hmy]
      rfl
    rw [circle_radius_val]
    refine ⟨by linarith, ?_, by linarith, ?_⟩
    · calc p.1 + 1 / 2 ≤ mx + 1 / 2 := by linarith
        _ ≤ max (mx + 1 / 2) (my + 1 / 2) := le_max_left _ _
        _ = side := hside
    · calc p.2 + 1 / 2 ≤ my + 1 / 2 := by linarith
        _ ≤ max (mx + 1 / 2) (my + 1 / 2) := le_max_right _ _
        _ = side := hside

/-- Witness for C9 amended: the grid cell (0,0) center (1/2, 1/2) has
its disc inside the grid box, instantiating the first conjunct. -/
theorem packing_invariant_amended_witness :
    0 ≤ ((0 : ℚ) * CIRCLE_DIAMETER + CIRCLE_RADIUS,
         (0 : ℚ) * CIRCLE_DIAMETER + CIRCLE_RADIUS).1 - CIRCLE_RADIUS ∧
    ((0 : ℚ) * CIRCLE_DIAMETER + CIRCLE_RADIUS,
     (0 : ℚ) * CIRCLE_DIAMETER + CIRCLE_RADIUS).1 + CIRCLE_RADIUS ≤
      generate_coords_100_circles.2 ∧
    0 ≤ ((0 : ℚ) * CIRCLE_DIAMETER + CIRCLE_RADIUS,
         (0 : ℚ) * CIRCLE_DIAMETER + CIRCLE_RADIUS).2 - CIRCLE_RADIUS ∧
    ((0 : ℚ) * CIRCLE_DIAMETER + CIRCLE_RADIUS,
     (0 : ℚ) * CIRCLE_DIAMETER + CIRCLE_RADIUS).2 + CIRCLE_RADIUS ≤
      generate_coords_100_circles.2 :=
  packing_invariant_amended.1 _
    ((grid_mem_iff _).mpr ⟨0, by norm_num, 0, by norm_num, rfl⟩)

/-- C1 is false as stated: a successful load returns only ONE scalar,
`max(packing_width, packing_height)`, not both dimensions.  For the
3-column file with rows "1 0 0" and "2 4 2" the normalized centers are
(1/2, 1/2) and (9/2, 5/2); packing_width = 5 but packing_height =
max of the normalized y plus r, namely 3; the returned dimension is 5, and no component
equal to the claimed packing_height 3 is returned. -/
theorem loader_single_dimension_counterexample :
    load_coords_106_circles 1 (some ⟨16, [[Token.num 1, Token.num 0, Token.num 0],
        [Token.num 2, Token.num 4, Token.num 2]]⟩) =
      PyResult.ret ([(1 / 2, 1 / 2), (9 / 2, 5 / 2)], 5, LoadStatus.success true) ∧
    npMax ([((1 : ℚ) / 2, (1 : ℚ) / 2), ((9 : ℚ) / 2, (5 : ℚ) / 2)].map Prod.snd) =
      some (5 / 2) ∧
    (5 : ℚ) ≠ 5 / 2 + CIRCLE_RADIUS := by
  refine ⟨?_, ?_, ?_⟩
  · norm_num [load_coords_106_circles, loadtxtRows, parseRow, npMin, npMax,
      normalizeCoords, boundingBox, circle_radius_val, min_def, max_def]
  · norm_num [npMax, max_def]
  · rw [circle_radius_val]
    norm_num

/-- C1 amended: for every coordinate file the loader loads successfully,
the minimum of the normalized x-coordinates and the minimum of the
normalized y-coordinates each equal the radius exactly, and the returned
dimension is the single scalar max over both axes of (max coordinate
plus r), i.e. the
larger of packing_width and packing_height. -/
theorem loader_normalization_spec (ec : ℕ) (f : CoordFile)
    (coords : List (ℚ × ℚ)) (side : ℚ) (w : Bool)
    (h : load_coords_106_circles ec (some f) = .ret (coords, side, .success w)) :
    npMin (coords.map Prod.fst) = some CIRCLE_RADIUS ∧
    npMin (coords.map Prod.snd) = some CIRCLE_RADIUS ∧
    ∃ mx my, npMax (coords.map Prod.fst) = some mx ∧
      npMax (coords.map Prod.snd) = some my ∧
      side = max (mx + CIRCLE_RADIUS) (my + CIRCLE_RADIUS) := by
  obtain ⟨q, ps, hs, hparse⟩ := load_success_inv ec f coords side w h
  rw [load_eval ec f q ps hs hparse] at h
  simp only [PyResult.ret.injEq, Prod.mk.injEq] at h
  obtain ⟨hc, hside, hw⟩ := h
  subst hc
  obtain ⟨mx, hmx⟩ := npMax_isSome_of_ne_nil
    ((normalizeCoords (q :: ps)).map Prod.fst)
    (by simp [normalizeCoords_ne_nil (q :: ps) (List.cons_ne_nil q ps)])
  obtain ⟨my, hmy⟩ := npMax_isSome_of_ne_nil
    ((normalizeCoords (q :: ps)).map Prod.snd)
    (by simp [normalizeCoords_ne_nil (q :: ps) (List.cons_ne_nil q ps)])
  rw [circle_radius_val]
  refine ⟨normalized_min_fst _ (List.cons_ne_nil q ps),
          normalized_min_snd _ (List.cons_ne_nil q ps),
          mx, my, hmx, hmy, ?_⟩
  rw [← hside, hmx, hmy]
  rfl

/-- Witness for C1 amended, at the example from the spec: rows "1 3.0 3.0" and
"2 -1.0 -1.0" load to normalized centers (9/2, 9/2), (1/2, 1/2) with
returned dimension 5 (= packing_width = packing_height there), and the
normalized minima equal the radius. -/
theorem loader_normalization_spec_witness :
    load_coords_106_circles 1 (some ⟨24, [[Token.num 1, Token.num 3, Token.num 3],
        [Token.num 2, Token.num (-1), Token.num (-1)]]⟩) =
      PyResult.ret ([(9 / 2, 9 / 2), (1 / 2, 1 / 2)], 5, LoadStatus.success true) ∧
    (npMin ([((9 : ℚ) / 2, (9 : ℚ) / 2), ((1 : ℚ) / 2, (1 : ℚ) / 2)].map Prod.fst) =
        some CIRCLE_RADIUS ∧
     npMin ([((9 : ℚ) / 2, (9 : ℚ) / 2), ((1 : ℚ) / 2, (1 : ℚ) / 2)].map Prod.snd) =
        some CIRCLE_RADIUS ∧
     ∃ mx my,
       npMax ([((9 : ℚ) / 2, (9 : ℚ) / 2), ((1 : ℚ) / 2, (1 : ℚ) / 2)].map Prod.fst) =
          some mx ∧
       npMax ([((9 : ℚ) / 2, (9 : ℚ) / 2), ((1 : ℚ) / 2, (1 : ℚ) / 2)].map Prod.snd) =
          some my ∧
       (5 : ℚ) = max (mx + CIRCLE_RADIUS) (my + CIRCLE_RADIUS)) := by
  have hload : load_coords_106_circles 1
      (some ⟨24, [[Token.num 1, Token.num 3, Token.num 3],
        [Token.num 2, Token.num (-1), Token.num (-1)]]⟩) =
      PyResult.ret ([(9 / 2, 9 / 2), (1 / 2, 1 / 2)], 5, LoadStatus.success true) := by
    norm_num [load_coords_106_circles, loadtxtRows, parseRow, npMin, npMax,
      normalizeCoords, boundingBox, circle_radius_val, min_def, max_def]
  exact ⟨hload, loader_normalization_spec 1 _ _ _ _ hload⟩

/-- C5 is false for the MalformedFormat part: a file whose rows have
four columns — three data columns after discarding the index — loads
SUCCESSFULLY, because `usecols=(1, 2)` reads only columns 1 and 2 and
ignores the extras; the claim requires a MalformedFormat failure. -/
theorem malformed_format_counterexample :
    load_coords_106_circles 1
        (some ⟨20, [[Token.num 1, Token.num 0, Token.num 0, Token.num 7],
                    [Token.num 2, Token.num 1, Token.num 1, Token.num 8]]⟩) =
      PyResult.ret ([(1 / 2, 1 / 2), (3 / 2, 3 / 2)], 2, LoadStatus.success true) := by
  norm_num [load_coords_106_circles, loadtxtRows, parseRow, npMin, npMax,
    normalizeCoords, boundingBox, circle_radius_val, min_def, max_def]

/-- C5 amended: the loader fails with a distinguishable kind per cause —
missing file: NotFound; zero-byte file: EmptyFile; non-numeric token in
a coordinate column: ParseError; a row too narrow to contain columns 1
and 2: ParseError (the loadtxt exception path, not MalformedFormat) —
and in each failure case returns the empty packing (zero circles, zero
dimension) instead of terminating. -/
theorem loader_failure_kinds :
    load_coords_106_circles 1 none = PyResult.ret ([], 0, LoadStatus.notFound) ∧
    load_coords_106_circles 1 (some ⟨0, []⟩) =
      PyResult.ret ([], 0, LoadStatus.emptyFile) ∧
    load_coords_106_circles 1
        (some ⟨6, [[Token.num 1, Token.other, Token.num 0]]⟩) =
      PyResult.ret ([], 0, LoadStatus.parseError) ∧
    load_coords_106_circles 1 (some ⟨4, [[Token.num 1, Token.num 0]]⟩) =
      PyResult.ret ([], 0, LoadStatus.parseError) :=
  ⟨rfl, rfl, rfl, rfl⟩

theorem loadtxtRows_replicate (n : ℕ) :
    loadtxtRows (List.replicate n [Token.num 1, Token.num 2, Token.num 3]) =
      some (List.replicate n ((2 : ℚ), (3 : ℚ))) := by
  induction n with
  | zero => rfl
  | succ k ih => simp [List.replicate_succ, loadtxtRows, parseRow, ih]

/-- C6: a row-count mismatch is non-fatal: a nonzero-size file whose
rows all parse, with any row count, loads successfully, returning all
parsed centers with the count warning flag, not a failure. -/
theorem count_mismatch_nonfatal (ec : ℕ) (f : CoordFile) (q : ℚ × ℚ)
    (ps : List (ℚ × ℚ)) (hs : f.size ≠ 0)
    (hparse : loadtxtRows f.rows = some (q :: ps))
    (hcount : (q :: ps).length ≠ 106) :
    ∃ coords side,
      load_coords_106_circles ec (some f) = .ret (coords, side, .success true) ∧
      coords.length = (q :: ps).length := by
  have hb : ((q :: ps).length != 106) = true := by
    simpa [bne_iff_ne] using hcount
  refine ⟨normalizeCoords (q :: ps),
    max ((npMax ((normalizeCoords (q :: ps)).map Prod.fst)).getD 0 + 1 / 2)
        ((npMax ((normalizeCoords (q :: ps)).map Prod.snd)).getD 0 + 1 / 2),
    ?_, normalizeCoords_length _⟩
  rw [load_eval ec f q ps hs hparse, hb]

/-- Witness for C6: a 50-row file of rows "1 2 3" (size 300 bytes)
loads successfully with 50 centers and the warning flag set. -/
theorem count_mismatch_nonfatal_witness :
    ∃ coords side,
      load_coords_106_circles 1
          (some ⟨300, List.replicate 50 [Token.num 1, Token.num 2, Token.num 3]⟩) =
        .ret (coords, side, .success true) ∧
      coords.length = (((2 : ℚ), (3 : ℚ)) ::
        List.replicate 49 ((2 : ℚ), (3 : ℚ))).length :=
  count_mismatch_nonfatal 1 _ ((2 : ℚ), (3 : ℚ)) (List.replicate 49 ((2 : ℚ), (3 : ℚ)))
    (by norm_num)
    (by rw [loadtxtRows_replicate]; rfl)
    (by simp)

/-- C7: the claim is right and the code is wrong: the bounding-box and
normalization computations (np.min / np.max plus radius) applied to zero
circles are UNDEFINED — NumPy raises `ValueError: zero-size array to
reduction operation`, modeled as `none` — rather than yielding a defined
zero-size result; under the NumPy variant that reports 2 columns for a
zero-row parse, a nonzero-size file with zero data rows reaches this
computation and the run aborts (`raise`). -/
theorem bounding_box_empty_undefined :
    boundingBox [] = none ∧ npMin ([] : List ℚ) = none ∧
    npMax ([] : List ℚ) = none ∧
    load_coords_106_circles 2 (some ⟨3, []⟩) = PyResult.raise :=
  ⟨rfl, rfl, rfl, rfl⟩

/-- C8: the normalization step is idempotent on every non-empty list of
centers: after the first application the minimum on each axis is exactly
the radius 1/2, so the second shift is zero. -/
theorem normalization_idempotent (l : List (ℚ × ℚ)) (h : l ≠ []) :
    normalizeCoords (normalizeCoords l) = normalizeCoords l :=
  normalize_eq_self_of_min _ (normalized_min_fst l h) (normalized_min_snd l h)

/-- Witness for C8 at the two-point list (3, 3), (-1, -1) from the
example given in the spec. -/
theorem normalization_idempotent_witness :
    ([((3 : ℚ), (3 : ℚ)), ((-1 : ℚ), (-1 : ℚ))] ≠ []) ∧
    normalizeCoords (normalizeCoords [((3 : ℚ), (3 : ℚ)), ((-1 : ℚ), (-1 : ℚ))]) =
      normalizeCoords [((3 : ℚ), (3 : ℚ)), ((-1 : ℚ), (-1 : ℚ))] :=
  ⟨by simp, normalization_idempotent _ (by simp)⟩
